import Mathlib

/-!
# SolidPipeline (avogadro/rendering/solidpipeline.h)

A shallow embedding of the `SolidPipeline` class: its private fields, the
inline effect accessors defined in the header, and the end-of-frame
operation whose body lives outside the header.
-/

namespace Avogadro
namespace Rendering

/-! ## The C++ `float` type -/

/-- IEEE-754 binary32 value, the representation of the C++ `float` fields:
one sign bit, eight exponent bits and twenty-three fraction bits. -/
structure F32 where
  sign : Bool
  exponent : Fin 256
  mantissa : Fin 8388608
deriving DecidableEq, Repr

namespace F32

/-- The literal `0.0` converted to `float` (positive zero). -/
def zero : F32 := ⟨false, 0, 0⟩

/-- The literal `1.0` converted to `float`. -/
def one : F32 := ⟨false, 127, 0⟩

/-- The value `0.5`. -/
def half : F32 := ⟨false, 126, 0⟩

/-- The value `-1.0`. -/
def negOne : F32 := ⟨true, 127, 0⟩

/-- Not-a-number: all exponent bits set and a non-zero fraction. -/
def isNaN (x : F32) : Bool := x.exponent == 255 && x.mantissa != 0

/-- Positive or negative zero. -/
def isZero (x : F32) : Bool := x.exponent == 0 && x.mantissa == 0

/-- C++ `a == b` on floats: false when either side is NaN, and the two
zeros compare equal. -/
def feq (a b : F32) : Bool :=
  !a.isNaN && !b.isNaN && (decide (a = b) || (a.isZero && b.isZero))

/-- C++ `x < 0.0f`. -/
def ltZero (x : F32) : Bool := x.sign && !x.isNaN && !x.isZero

/-- C++ `x >= 0.0f`. -/
def geZero (x : F32) : Bool := !x.isNaN && (!x.sign || x.isZero)

/-- The floating-to-boolean conversion of C++: a zero value converts to
`false`, every other value (NaN included) to `true`. -/
def toBool (x : F32) : Bool := !x.isZero

/-- The boolean-to-floating conversion of C++: `true` is `1.0f`, `false` is
`0.0f`. -/
def ofBool (b : Bool) : F32 := if b then one else zero

end F32

/-- The 4x4 float matrix stored by `Eigen::Affine3f`. -/
structure Affine3f where
  m : Fin 4 → Fin 4 → F32

/-! ## State held behind the `Private* d` handle -/

/-- The states of the pipeline's lifecycle. -/
inductive Phase where
  | Uninitialized
  | Idle
  | FrameOpen
  | Released
deriving DecidableEq, Repr

/-- The error kinds the pipeline signals. -/
inductive PipelineError where
  | StateViolation
  | AllocationError
  | ConfigurationError
deriving DecidableEq, Repr

/-- Modelled from the spec: the Render Target Set, the colour/depth buffers
owned by the pipeline (its definition is part of the absent class
`SolidPipeline::Private`); only the buffer dimensions are recorded. -/
structure RenderTargetSet where
  allocated : Bool
  bufWidth : Int
  bufHeight : Int
deriving DecidableEq, Repr

/-- Modelled from the spec: the class `SolidPipeline::Private`, declared at
solidpipeline.h:105 and defined outside the header. It holds the lifecycle
state, the Render Target Set and the device limit on a buffer dimension. -/
structure Private where
  phase : Phase
  targets : RenderTargetSet
  deviceLimit : Nat
deriving DecidableEq, Repr

/-! ## The class -/

/-- The private data members of `SolidPipeline`, in declaration order
(solidpipeline.h:94-106). -/
structure SolidPipeline where
  m_pixelRatio : F32
  m_aoEnabled : Bool
  modelView : Affine3f
  m_dofStrength : F32
  m_dofEnabled : Bool
  m_aoStrength : F32
  m_edEnabled : Bool
  m_edStrength : F32
  m_width : Int
  m_height : Int
  d : Private

namespace SolidPipeline

/-- Source: `bool getAoEnabled() { return m_aoEnabled; }` -/
def getAoEnabled (p : SolidPipeline) : Bool := p.m_aoEnabled

/-- Source: `void setAoEnabled(bool enabled) { m_aoEnabled = enabled; }` -/
def setAoEnabled (p : SolidPipeline) (enabled : Bool) : SolidPipeline :=
  { p with m_aoEnabled := enabled }

/-- Source: `bool getDofEnabled() { return m_dofEnabled; }` -/
def getDofEnabled (p : SolidPipeline) : Bool := p.m_dofEnabled

/-- Source: `void setDofEnabled(bool enabled) { m_dofEnabled = enabled; }` -/
def setDofEnabled (p : SolidPipeline) (enabled : Bool) : SolidPipeline :=
  { p with m_dofEnabled := enabled }

/-- Source: `float getAoStrength() { return m_aoStrength; }` -/
def getAoStrength (p : SolidPipeline) : F32 := p.m_aoStrength

/-- Source: `void setAoStrength(float strength) { m_aoStrength = strength; }` -/
def setAoStrength (p : SolidPipeline) (strength : F32) : SolidPipeline :=
  { p with m_aoStrength := strength }

/-- Source: `bool getEdEnabled() { return m_edEnabled; }` -/
def getEdEnabled (p : SolidPipeline) : Bool := p.m_edEnabled

/-- Source: `void setEdEnabled(bool enabled)`: stores the flag, then
`m_edStrength = (m_edEnabled) ? 1.0 : 0.0;`. -/
def setEdEnabled (p : SolidPipeline) (enabled : Bool) : SolidPipeline :=
  let p1 := { p with m_edEnabled := enabled }
  { p1 with m_edStrength := if p1.m_edEnabled then F32.one else F32.zero }

/-- Source: `float getDofStrength() { return m_dofStrength; }` -/
def getDofStrength (p : SolidPipeline) : F32 := p.m_dofStrength

/-- Source: `void setDofStrength(float strength) { m_dofStrength = strength; }` -/
def setDofStrength (p : SolidPipeline) (strength : F32) : SolidPipeline :=
  { p with m_dofStrength := strength }

/-- Source: `bool getEdStrength() { return m_edStrength; }`: the float member is
converted to the declared return type `bool`. -/
def getEdStrength (p : SolidPipeline) : Bool := p.m_edStrength.toBool

/-- Source: `void setEdStrength(float strength) { m_edStrength = strength; }` -/
def setEdStrength (p : SolidPipeline) (strength : F32) : SolidPipeline :=
  { p with m_edStrength := strength }

end SolidPipeline

/-! ## Sequences of effect-setter calls -/

/-- One call to a public effect setter, with its argument. -/
inductive EffectCall where
  | setAoEnabled (enabled : Bool)
  | setAoStrength (strength : F32)
  | setDofEnabled (enabled : Bool)
  | setDofStrength (strength : F32)
  | setEdEnabled (enabled : Bool)
  | setEdStrength (strength : F32)
deriving DecidableEq, Repr

namespace EffectCall

/-- Performs the call on a pipeline. -/
def apply (c : EffectCall) (p : SolidPipeline) : SolidPipeline :=
  match c with
  | setAoEnabled b => p.setAoEnabled b
  | setAoStrength s => p.setAoStrength s
  | setDofEnabled b => p.setDofEnabled b
  | setDofStrength s => p.setDofStrength s
  | setEdEnabled b => p.setEdEnabled b
  | setEdStrength s => p.setEdStrength s

/-- Whether the call is a `setEdStrength`. -/
def isSetEdStrength (c : EffectCall) : Bool :=
  match c with
  | setEdStrength _ => true
  | _ => false

end EffectCall

/-- Performs the calls in order, first to last. -/
def runCalls (cs : List EffectCall) (p : SolidPipeline) : SolidPipeline :=
  cs.foldl (fun q c => c.apply q) p

/-- The edge strength mirrors the edge flag: `1.0` when enabled, `0.0` when
disabled. -/
def edDerived (p : SolidPipeline) : Prop :=
  p.m_edStrength = if p.m_edEnabled then F32.one else F32.zero

instance (p : SolidPipeline) : Decidable (edDerived p) := by
  unfold edDerived; exact inferInstance

/-! ## Frame operations -/

namespace SolidPipeline

/-- Modelled from the spec: `void end()`, declared at solidpipeline.h:40 with
its body outside the header. With a frame open it closes the frame
(`FrameOpen → Idle`); in every other state it signals a StateViolation and
changes nothing. -/
def end_ (p : SolidPipeline) : SolidPipeline × Option PipelineError :=
  match p.d.phase with
  | Phase.FrameOpen => ({ p with d := { p.d with phase := Phase.Idle } }, none)
  | _ => (p, some PipelineError.StateViolation)

end SolidPipeline

/-! ## Sample states -/

/-- The identity transform. -/
def Affine3f.identity : Affine3f := ⟨fun i j => if i = j then F32.one else F32.zero⟩

/-- An initialised pipeline between frames: an 800x600 viewport at ratio
1.0, every effect disabled. -/
def idlePipeline : SolidPipeline where
  m_pixelRatio := F32.one
  m_aoEnabled := false
  modelView := Affine3f.identity
  m_dofStrength := F32.zero
  m_dofEnabled := false
  m_aoStrength := F32.zero
  m_edEnabled := false
  m_edStrength := F32.zero
  m_width := 800
  m_height := 600
  d := ⟨Phase.Idle, ⟨true, 800, 600⟩, 16384⟩

/-! ## Float comparisons used by the statements -/

theorem F32.feq_self_of_not_nan (x : F32) (h : x.isNaN = false) : F32.feq x x = true := by
  simp [F32.feq, h]

theorem F32.isNaN_of_geZero (x : F32) (h : x.geZero = true) : x.isNaN = false := by
  simp only [F32.geZero, Bool.and_eq_true, Bool.not_eq_true'] at h
  exact h.1

theorem F32.isNaN_of_ltZero (x : F32) (h : x.ltZero = true) : x.isNaN = false := by
  simp only [F32.ltZero, Bool.and_eq_true, Bool.not_eq_true'] at h
  exact h.1.2

theorem F32.feq_zero_of_ltZero (x : F32) (h : x.ltZero = true) : F32.feq x F32.zero = false := by
  simp only [F32.ltZero, Bool.and_eq_true, Bool.not_eq_true'] at h
  obtain ⟨⟨hs, _⟩, hz⟩ := h
  have hne : x ≠ F32.zero := by
    intro he
    rw [he] at hs
    simp [F32.zero] at hs
  simp [F32.feq, hz, hne]

theorem F32.toBool_eq_not_feq_zero (x : F32) : x.toBool = !(F32.feq x F32.zero) := by
  by_cases hz : x.isZero = true
  · have hn : x.isNaN = false := by
      simp only [F32.isZero, Bool.and_eq_true, beq_iff_eq] at hz
      simp [F32.isNaN, hz.1]
    have hz0 : F32.zero.isZero = true := by decide
    have hn0 : F32.zero.isNaN = false := by decide
    simp [F32.toBool, F32.feq, hz, hn, hz0, hn0]
  · have hz2 : x.isZero = false := by simpa using hz
    have hne : x ≠ F32.zero := by
      intro he
      rw [he] at hz2
      exact absurd hz2 (by decide)
    simp [F32.toBool, F32.feq, hz2, hne]

/-! ## Edge detection -/

namespace SolidPipeline

/-- C1: from every state and for every boolean `b`, `setEdEnabled(b)` leaves
the stored edge strength at exactly `1.0` when `b` is true and exactly `0.0`
when `b` is false, and `getEdEnabled()` then returns `b`. -/
theorem setEdEnabled_forces_edStrength (p : SolidPipeline) (b : Bool) :
    (p.setEdEnabled b).m_edStrength = (if b then F32.one else F32.zero) ∧
    ((p.setEdEnabled true).m_edStrength = F32.one ∧
      (p.setEdEnabled false).m_edStrength = F32.zero) ∧
    (p.setEdEnabled b).getEdEnabled = b := by
  refine ⟨?_, ⟨?_, ?_⟩, ?_⟩ <;> simp [setEdEnabled, getEdEnabled]

/-- C10: `getEdStrength()` returns a `bool`: it is true exactly when the
stored edge strength compares unequal to zero, its value read as a number is
0 or 1, and right after `setEdEnabled(b)` both `getEdStrength()` and
`getEdEnabled()` equal `b`. -/
theorem getEdStrength_is_flag (p : SolidPipeline) (b : Bool) :
    p.getEdStrength = !(F32.feq p.m_edStrength F32.zero) ∧
    (F32.ofBool p.getEdStrength = F32.zero ∨ F32.ofBool p.getEdStrength = F32.one) ∧
    (p.setEdEnabled b).getEdStrength = b ∧
    (p.setEdEnabled b).getEdStrength = (p.setEdEnabled b).getEdEnabled := by
  refine ⟨F32.toBool_eq_not_feq_zero _, ?_, ?_, ?_⟩
  · cases h : p.getEdStrength <;> simp [F32.ofBool]
  · cases b <;> simp [setEdEnabled, getEdStrength] <;> decide
  · cases b <;> simp [setEdEnabled, getEdStrength, getEdEnabled] <;> decide

/-- C4 (the code at the failing input): after `setEdStrength(0.5)`,
`getEdStrength()` returns `true`, which read as a number is `1.0` and does
not compare equal to the `0.5` that was stored. -/
theorem getEdStrength_after_setEdStrength_half (p : SolidPipeline) :
    (p.setEdStrength F32.half).m_edStrength = F32.half ∧
    (p.setEdStrength F32.half).getEdStrength = true ∧
    F32.ofBool (p.setEdStrength F32.half).getEdStrength = F32.one ∧
    F32.feq (F32.ofBool (p.setEdStrength F32.half).getEdStrength) F32.half = false := by
  have h : (p.setEdStrength F32.half).getEdStrength = true := by
    simp only [setEdStrength, getEdStrength]; decide
  refine ⟨rfl, h, ?_, ?_⟩
  · rw [h]; rfl
  · rw [h]; decide

end SolidPipeline

/-- C2 (counterexample): a pipeline whose edge strength mirrors its flag
loses that property with the single call `setEdStrength(0.5)`. -/
theorem edDerived_broken_by_setEdStrength :
    edDerived idlePipeline ∧
    ¬ edDerived (runCalls [EffectCall.setEdStrength F32.half] idlePipeline) := by
  decide

/-- Every setter other than `setEdStrength` keeps the edge strength equal to
the value derived from the edge flag. -/
theorem edDerived_apply (c : EffectCall) (p : SolidPipeline)
    (hc : c.isSetEdStrength = false) (h : edDerived p) : edDerived (c.apply p) := by
  unfold edDerived at h ⊢
  cases c with
  | setAoEnabled b => simpa [EffectCall.apply, SolidPipeline.setAoEnabled] using h
  | setAoStrength s => simpa [EffectCall.apply, SolidPipeline.setAoStrength] using h
  | setDofEnabled b => simpa [EffectCall.apply, SolidPipeline.setDofEnabled] using h
  | setDofStrength s => simpa [EffectCall.apply, SolidPipeline.setDofStrength] using h
  | setEdEnabled b => simp [EffectCall.apply, SolidPipeline.setEdEnabled]
  | setEdStrength s => simp [EffectCall.isSetEdStrength] at hc

/-- C2 (amended): starting from a state whose edge strength is `1.0` if the
edge flag is set and `0.0` otherwise, every sequence of calls to
`setAoEnabled`, `setAoStrength`, `setDofEnabled`, `setDofStrength` and
`setEdEnabled` (no call to `setEdStrength`) ends in a state with the same
property. -/
theorem edDerived_runCalls (cs : List EffectCall) (p : SolidPipeline)
    (h : edDerived p) (hcs : ∀ c ∈ cs, c.isSetEdStrength = false) :
    edDerived (runCalls cs p) := by
  induction cs generalizing p with
  | nil => simpa [runCalls] using h
  | cons c cs ih =>
    have hc : c.isSetEdStrength = false := hcs c (List.mem_cons_self c cs)
    have hrest : ∀ c' ∈ cs, c'.isSetEdStrength = false :=
      fun c' hc' => hcs c' (List.mem_cons_of_mem c hc')
    have hstep := ih (c.apply p) (edDerived_apply c p hc h) hrest
    simpa [runCalls] using hstep

/-- C2 (witness): three setter calls on the sample pipeline. -/
theorem edDerived_runCalls_witness :
    edDerived idlePipeline ∧
    (∀ c ∈ [EffectCall.setAoStrength F32.half, EffectCall.setEdEnabled true,
        EffectCall.setDofEnabled true], c.isSetEdStrength = false) ∧
    edDerived (runCalls [EffectCall.setAoStrength F32.half, EffectCall.setEdEnabled true,
        EffectCall.setDofEnabled true] idlePipeline) :=
  ⟨by decide, by decide,
    edDerived_runCalls [EffectCall.setAoStrength F32.half, EffectCall.setEdEnabled true,
        EffectCall.setDofEnabled true] idlePipeline (by decide) (by decide)⟩

/-! ## Ambient occlusion and depth of field -/

namespace SolidPipeline

/-- C3 (counterexample): after `setAoStrength(-1.0)` and after
`setDofStrength(-1.0)` the getters return `-1.0`, which does not compare
equal to 0. -/
theorem negative_strength_not_clamped :
    F32.negOne.ltZero = true ∧
    (idlePipeline.setAoStrength F32.negOne).getAoStrength = F32.negOne ∧
    F32.feq (idlePipeline.setAoStrength F32.negOne).getAoStrength F32.zero = false ∧
    (idlePipeline.setDofStrength F32.negOne).getDofStrength = F32.negOne ∧
    F32.feq (idlePipeline.setDofStrength F32.negOne).getDofStrength F32.zero = false := by
  decide

/-- C3 (amended): a negative strength is stored as given: for every state
and every `s < 0`, `getAoStrength()` after `setAoStrength(s)` and
`getDofStrength()` after `setDofStrength(s)` return `s` itself, a value that
is still negative and unequal to 0. The setters are total and have no error
result. -/
theorem negative_strength_stored (p : SolidPipeline) (s : F32) (hs : s.ltZero = true) :
    (p.setAoStrength s).getAoStrength = s ∧
    F32.feq (p.setAoStrength s).getAoStrength s = true ∧
    (p.setAoStrength s).getAoStrength.ltZero = true ∧
    F32.feq (p.setAoStrength s).getAoStrength F32.zero = false ∧
    (p.setDofStrength s).getDofStrength = s ∧
    F32.feq (p.setDofStrength s).getDofStrength s = true ∧
    (p.setDofStrength s).getDofStrength.ltZero = true ∧
    F32.feq (p.setDofStrength s).getDofStrength F32.zero = false := by
  have hself : F32.feq s s = true := F32.feq_self_of_not_nan s (F32.isNaN_of_ltZero s hs)
  have hzero : F32.feq s F32.zero = false := F32.feq_zero_of_ltZero s hs
  exact ⟨rfl, hself, hs, hzero, rfl, hself, hs, hzero⟩

/-- C3 (witness): the amended statement at the sample pipeline and
`s = -1.0`. -/
theorem negative_strength_stored_witness :
    F32.negOne.ltZero = true ∧
    (idlePipeline.setAoStrength F32.negOne).getAoStrength = F32.negOne ∧
    (idlePipeline.setDofStrength F32.negOne).getDofStrength = F32.negOne :=
  have h := negative_strength_stored idlePipeline F32.negOne (by decide)
  ⟨by decide, h.1, h.2.2.2.2.1⟩

/-- C5: the ambient-occlusion and depth-of-field accessors round-trip: for
every state, boolean `b` and strength `s >= 0`, each getter called after
its setter returns the value that was set. -/
theorem ao_dof_accessors_roundtrip (p : SolidPipeline) (b : Bool) (s : F32)
    (hs : s.geZero = true) :
    (p.setAoEnabled b).getAoEnabled = b ∧
    (p.setDofEnabled b).getDofEnabled = b ∧
    ((p.setAoStrength s).getAoStrength = s ∧
      F32.feq (p.setAoStrength s).getAoStrength s = true) ∧
    ((p.setDofStrength s).getDofStrength = s ∧
      F32.feq (p.setDofStrength s).getDofStrength s = true) := by
  have hself : F32.feq s s = true := F32.feq_self_of_not_nan s (F32.isNaN_of_geZero s hs)
  exact ⟨rfl, rfl, ⟨rfl, hself⟩, ⟨rfl, hself⟩⟩

/-- C5 (witness): the round trip at the sample pipeline, `b = true` and
`s = 0.5`. -/
theorem ao_dof_accessors_roundtrip_witness :
    F32.half.geZero = true ∧
    (idlePipeline.setAoEnabled true).getAoEnabled = true ∧
    F32.feq (idlePipeline.setAoStrength F32.half).getAoStrength F32.half = true ∧
    F32.feq (idlePipeline.setDofStrength F32.half).getDofStrength F32.half = true :=
  have h := ao_dof_accessors_roundtrip idlePipeline true F32.half (by decide)
  ⟨by decide, h.1, h.2.2.1.2, h.2.2.2.2⟩

/-! ## Frame conditions of the setters -/

/-- C6: each effect setter changes only its own effect field:
`setAoEnabled`, `setAoStrength`, `setDofEnabled` and `setDofStrength` leave
the five other effect fields as they were, `setEdEnabled` leaves the four
AO/DoF fields as they were, and `setEdStrength` leaves every effect field
but `m_edStrength` as it was. -/
theorem effect_setters_frame (p : SolidPipeline) (b : Bool) (s : F32) :
    ((p.setAoEnabled b).m_aoStrength = p.m_aoStrength ∧
      (p.setAoEnabled b).m_dofEnabled = p.m_dofEnabled ∧
      (p.setAoEnabled b).m_dofStrength = p.m_dofStrength ∧
      (p.setAoEnabled b).m_edEnabled = p.m_edEnabled ∧
      (p.setAoEnabled b).m_edStrength = p.m_edStrength) ∧
    ((p.setAoStrength s).m_aoEnabled = p.m_aoEnabled ∧
      (p.setAoStrength s).m_dofEnabled = p.m_dofEnabled ∧
      (p.setAoStrength s).m_dofStrength = p.m_dofStrength ∧
      (p.setAoStrength s).m_edEnabled = p.m_edEnabled ∧
      (p.setAoStrength s).m_edStrength = p.m_edStrength) ∧
    ((p.setDofEnabled b).m_aoEnabled = p.m_aoEnabled ∧
      (p.setDofEnabled b).m_aoStrength = p.m_aoStrength ∧
      (p.setDofEnabled b).m_dofStrength = p.m_dofStrength ∧
      (p.setDofEnabled b).m_edEnabled = p.m_edEnabled ∧
      (p.setDofEnabled b).m_edStrength = p.m_edStrength) ∧
    ((p.setDofStrength s).m_aoEnabled = p.m_aoEnabled ∧
      (p.setDofStrength s).m_aoStrength = p.m_aoStrength ∧
      (p.setDofStrength s).m_dofEnabled = p.m_dofEnabled ∧
      (p.setDofStrength s).m_edEnabled = p.m_edEnabled ∧
      (p.setDofStrength s).m_edStrength = p.m_edStrength) ∧
    ((p.setEdEnabled b).m_aoEnabled = p.m_aoEnabled ∧
      (p.setEdEnabled b).m_aoStrength = p.m_aoStrength ∧
      (p.setEdEnabled b).m_dofEnabled = p.m_dofEnabled ∧
      (p.setEdEnabled b).m_dofStrength = p.m_dofStrength) ∧
    ((p.setEdStrength s).m_aoEnabled = p.m_aoEnabled ∧
      (p.setEdStrength s).m_aoStrength = p.m_aoStrength ∧
      (p.setEdStrength s).m_dofEnabled = p.m_dofEnabled ∧
      (p.setEdStrength s).m_dofStrength = p.m_dofStrength ∧
      (p.setEdStrength s).m_edEnabled = p.m_edEnabled) := by
  refine ⟨⟨rfl, rfl, rfl, rfl, rfl⟩, ⟨rfl, rfl, rfl, rfl, rfl⟩, ⟨rfl, rfl, rfl, rfl, rfl⟩,
    ⟨rfl, rfl, rfl, rfl, rfl⟩, ⟨rfl, rfl, rfl, rfl⟩, ⟨rfl, rfl, rfl, rfl, rfl⟩⟩

end SolidPipeline

/-- C7: no effect setter changes `m_pixelRatio`, `m_width`, `m_height` or the
stored `modelView` transform, whichever setter is called and from whichever
state. -/
theorem effect_setters_keep_pipelineState (c : EffectCall) (p : SolidPipeline) :
    (c.apply p).m_pixelRatio = p.m_pixelRatio ∧
    (c.apply p).m_width = p.m_width ∧
    (c.apply p).m_height = p.m_height ∧
    (c.apply p).modelView = p.modelView := by
  cases c <;> exact ⟨rfl, rfl, rfl, rfl⟩

/-! ## Frame bracket -/

namespace SolidPipeline

/-- C8: `end()` called with no frame open signals a StateViolation and
returns the pipeline exactly as it was, the Render Target Set included. -/
theorem end_without_open_frame (p : SolidPipeline) (h : p.d.phase ≠ Phase.FrameOpen) :
    p.end_.2 = some PipelineError.StateViolation ∧
    p.end_.1 = p ∧
    p.end_.1.d.targets = p.d.targets := by
  have he : p.end_ = (p, some PipelineError.StateViolation) := by
    unfold end_
    split
    · rename_i hp
      exact absurd hp h
    · rfl
  rw [he]
  exact ⟨rfl, rfl, rfl⟩

/-- C8 (witness): `end()` on the idle sample pipeline. -/
theorem end_without_open_frame_witness :
    idlePipeline.d.phase ≠ Phase.FrameOpen ∧
    idlePipeline.end_.2 = some PipelineError.StateViolation ∧
    idlePipeline.end_.1.d.targets = idlePipeline.d.targets :=
  have h := end_without_open_frame idlePipeline (by decide)
  ⟨by decide, h.1, h.2.2⟩

end SolidPipeline

end Rendering
end Avogadro
